import Mathlib

/-!
Verification development for the vault-operator TLS issuer
(`pkg/operator/tls.go`) and the rolling-upgrade behaviour of the
reconciliation engine.

The Go code is shallowly embedded: the Kubernetes secret store is an
association list from secret name to secret (all operations in
`tls.go` act in the cluster resource's single namespace), randomness
for key generation is an explicit counter threaded through the
functions, and RSA/X.509 material is modelled symbolically (a
certificate records the public key of its subject and the public key
that signed it; signature verification succeeds exactly when the
signing key matches the verifying certificate's subject key).

Helper packages of the repository that `tls.go` calls but whose source
is not part of this development (`tlsutil`, `k8sutil`, the `api`
package) are modelled from the spec; each such definition carries a
doc comment saying so.
-/

namespace VaultOperator

/-- Symbolic RSA private key: `id` identifies the key pair; the
corresponding public key is identified by the same number. -/
structure PrivKey where
  id : Nat
deriving DecidableEq, Repr

/-- Symbolic X.509 certificate.  `subjectPub` is the public key the
certificate certifies, `issuerPub` the public key of the key pair that
signed it (signature verification against a CA certificate succeeds
exactly when `issuerPub` equals the CA certificate's `subjectPub`). -/
structure Cert where
  commonName : String
  organization : List String
  altNames : List String
  subjectPub : Nat
  issuerPub : Nat
  isCA : Bool
deriving DecidableEq, Repr

/-- Modelled from the spec: `tlsutil.CertConfig` — common name,
organization and SAN list for a certificate to be issued. -/
structure CertConfig where
  commonName : String
  organization : List String
  altNames : List String
deriving DecidableEq, Repr

/-- Modelled from the spec: `tlsutil.NewPrivateKey` generates a fresh
RSA private key.  The explicit counter stands for the randomness
source; each call returns a key distinct from all previous ones. -/
def NewPrivateKey (g : Nat) : PrivKey × Nat := (⟨g⟩, g + 1)

/-- Modelled from the spec: `tlsutil.NewSelfSignedCACertificate`
issues a CA certificate for `key`, signed by `key` itself. -/
def NewSelfSignedCACertificate (c : CertConfig) (key : PrivKey) : Cert :=
  { commonName := c.commonName, organization := c.organization,
    altNames := c.altNames, subjectPub := key.id, issuerPub := key.id,
    isCA := true }

/-- Modelled from the spec: `tlsutil.NewSignedCertificate` issues a
leaf certificate for `key`, embedding the config's SAN list and signed
by `caKey` (the CA certificate identifies the issuer). -/
def NewSignedCertificate (c : CertConfig) (key : PrivKey)
    (_caCert : Cert) (caKey : PrivKey) : Cert :=
  { commonName := c.commonName, organization := c.organization,
    altNames := c.altNames, subjectPub := key.id, issuerPub := caKey.id,
    isCA := false }

/-- Modelled from the spec: `tlsutil.NewAltNames` wraps a DNS-name
list (a nil Go slice becomes the empty list). -/
def NewAltNames (addrs : List String) : List String := addrs

/-- Signature verification: `c` validates against the CA certificate
`ca` exactly when `c` was signed by the key pair `ca` certifies. -/
def verifiedBy (c ca : Cert) : Bool := c.issuerPub == ca.subjectPub

/-- A certificate is self-signed when its own subject key signed it. -/
def selfSigned (c : Cert) : Bool := c.issuerPub == c.subjectPub

/-- A stored secret value: PEM-encoded key or certificate material, or
arbitrary raw bytes (possible for secrets written by other agents). -/
inductive PemValue
  | pemKey (k : PrivKey)
  | pemCert (c : Cert)
  | raw (s : String)
deriving DecidableEq, Repr

/-- A value is PEM-encoded key/certificate material. -/
def PemValue.isPem : PemValue → Bool
  | .pemKey _ => true
  | .pemCert _ => true
  | .raw _ => false

/-- Modelled from the spec: `tlsutil.EncodePrivateKeyPEM`. -/
def EncodePrivateKeyPEM (k : PrivKey) : PemValue := .pemKey k

/-- Modelled from the spec: `tlsutil.EncodeCertificatePEM`. -/
def EncodeCertificatePEM (c : Cert) : PemValue := .pemCert c

/-- Kubernetes `v1.Secret`, restricted to the fields `tls.go` uses. -/
structure Secret where
  name : String
  labels : List (String × String)
  ownerRefs : List String
  data : List (String × PemValue)
deriving DecidableEq, Repr

/-- Static TLS policy of a cluster spec: externally supplied secret
names (`vr.Spec.TLS.Static`). -/
structure StaticTLS where
  serverSecret : String
  clientSecret : String
deriving DecidableEq, Repr

/-- The `api.VaultService` cluster resource, restricted to the fields
`tls.go` reads.  `tls = none` models an absent TLS policy. -/
structure VaultService where
  name : String
  namespc : String
  nodes : Nat
  version : String
  tls : Option StaticTLS
deriving DecidableEq, Repr

/-- Modelled from the spec: `api.IsTLSConfigured` holds when the spec
carries a (static) TLS policy. -/
def IsTLSConfigured (t : Option StaticTLS) : Bool := t.isSome

/-- Modelled from the spec: secret names are deterministic functions
of the cluster identifier and role, e.g. `<cluster>-etcd-client-tls`
(`k8sutil.EtcdClientTLSSecretName`). -/
def EtcdClientTLSSecretName (name : String) : String := name ++ "-etcd-client-tls"

/-- Modelled from the spec: `k8sutil.EtcdServerTLSSecretName`. -/
def EtcdServerTLSSecretName (name : String) : String := name ++ "-etcd-server-tls"

/-- Modelled from the spec: `k8sutil.EtcdPeerTLSSecretName`. -/
def EtcdPeerTLSSecretName (name : String) : String := name ++ "-etcd-peer-tls"

/-- Modelled from the spec: `k8sutil.EtcdNameForVault` — the name of
the sibling consistency-store cluster for a vault cluster. -/
def EtcdNameForVault (name : String) : String := name ++ "-etcd"

/-- Modelled from the spec: `api.DefaultVaultServerTLSSecretName`. -/
def DefaultVaultServerTLSSecretName (name : String) : String := name ++ "-default-vault-server-tls"

/-- Modelled from the spec: `api.DefaultVaultClientTLSSecretName`. -/
def DefaultVaultClientTLSSecretName (name : String) : String := name ++ "-default-vault-client-tls"

/-- Modelled from the spec: `api.CATLSCertName`, the single data key
of the secret-service client bundle. -/
def CATLSCertName : String := "ca.crt"

/-- Modelled from the spec: `vaultutil.ServerTLSKeyName`. -/
def ServerTLSKeyName : String := "server.key"

/-- Modelled from the spec: `vaultutil.ServerTLSCertName`. -/
def ServerTLSCertName : String := "server.crt"

/-- Modelled from the spec: `k8sutil.LabelsForVault`. -/
def LabelsForVault (name : String) : List (String × String) :=
  [("app", "vault"), ("vault_cluster", name)]

/-- Modelled from the spec: `k8sutil.AsOwner` builds the owner
reference to the cluster resource (identified here by its name). -/
def AsOwner (vr : VaultService) : String := vr.name

/-- Modelled from the spec: `k8sutil.AddOwnerRefToObject` appends an
owner reference to the secret. -/
def AddOwnerRefToObject (se : Secret) (owner : String) : Secret :=
  { se with ownerRefs := se.ownerRefs ++ [owner] }

/-- `orgForTLSCert` from `tls.go`. -/
def orgForTLSCert : List String := ["coreos.com"]

/-- `defaultClusterDomain` from `tls.go`. -/
def defaultClusterDomain : String := "cluster.local"

/-- Kubernetes API error classes relevant to `tls.go`. -/
inductive KubeErr
  | notFound
  | alreadyExists
  | other (msg : String)
deriving DecidableEq, Repr

/-- String rendering of an API error (the `%v` verb in Go). -/
def KubeErr.msg : KubeErr → String
  | .notFound => "not found"
  | .alreadyExists => "already exists"
  | .other m => m

/-- The secret store of the cluster resource's namespace: an
association list from secret name to secret. -/
abbrev Store := List (String × Secret)

/-- `Secrets(ns).Get(name)`: look a secret up by name. -/
def Store.get? : Store → String → Option Secret
  | [], _ => none
  | (k, v) :: rest, n => if k = n then some v else Store.get? rest n

/-- `Secrets(ns).Create(se)`: fails with `AlreadyExists` when a secret
of the same name is present, otherwise stores the secret. -/
def Store.create (s : Store) (se : Secret) : Except KubeErr Store :=
  match s.get? se.name with
  | some _ => .error .alreadyExists
  | none => .ok (s ++ [(se.name, se)])

/-- `Secrets(ns).Delete(name)`: `fail` injects infrastructure errors
(the oracle gives the error message when the API call fails); without
an injected failure the call removes the secret or reports
`NotFound`. -/
def Store.delete (fail : String → Option String) (s : Store) (n : String) :
    Except KubeErr Store :=
  match fail n with
  | some m => .error (.other m)
  | none =>
    match s.get? n with
    | some _ => .ok (s.filter (fun p => p.1 != n))
    | none => .error .notFound

/-- The `err != nil && !apierrors.IsAlreadyExists(err)` pattern after
each `Create` in `tls.go`: an already-exists error is success. -/
def Store.createTolerant (s : Store) (se : Secret) : Except KubeErr Store :=
  match s.create se with
  | .ok s' => .ok s'
  | .error .alreadyExists => .ok s
  | .error e => .error e

/-- The store that results from an idempotent create: unchanged when
the name is taken, extended otherwise.  `createTolerant` always
succeeds with this store. -/
def Store.upsert (s : Store) (se : Secret) : Store :=
  match s.get? se.name with
  | some _ => s
  | none => s ++ [(se.name, se)]

/-- Association lookup in a secret's data map. -/
def lookupData : List (String × PemValue) → String → Option PemValue
  | [], _ => none
  | (k, v) :: rest, n => if k = n then some v else lookupData rest n

/-- The data keys of a secret, in order. -/
def dataKeys (se : Secret) : List String := se.data.map (·.1)

/-- The SAN list of the certificate stored under `field` in a
secret's data map, when that entry is a PEM certificate. -/
def certSANs (se : Secret) (field : String) : Option (List String) :=
  match lookupData se.data field with
  | some (.pemCert c) => some c.altNames
  | _ => none

/-- `newCACert` from `tls.go`: a fresh private key and a self-signed
CA certificate for it. -/
def newCACert (g : Nat) : PrivKey × Cert × Nat :=
  let (key, g') := NewPrivateKey g
  let config : CertConfig :=
    { commonName := "vault operator CA", organization := orgForTLSCert,
      altNames := [] }
  let cert := NewSelfSignedCACertificate config key
  (key, cert, g')

/-- `newKeyAndCert` from `tls.go`: a fresh private key and a leaf
certificate for it signed by the CA. -/
def newKeyAndCert (caCert : Cert) (caPrivKey : PrivKey) (config : CertConfig)
    (g : Nat) : PrivKey × Cert × Nat :=
  let (key, g') := NewPrivateKey g
  let cert := NewSignedCertificate config key caCert caPrivKey
  (key, cert, g')

/-- `newTLSSecret` from `tls.go`: a secret holding a fresh key, its
CA-signed certificate and the CA certificate, under the role's field
names. -/
def newTLSSecret (vr : VaultService) (caKey : PrivKey) (caCrt : Cert)
    (commonName secretName : String) (addrs : List String)
    (fieldKey fieldCert fieldCA : String) (g : Nat) : Secret × Nat :=
  let tc : CertConfig :=
    { commonName := commonName, organization := orgForTLSCert,
      altNames := NewAltNames addrs }
  let (key, crt, g') := newKeyAndCert caCrt caKey tc g
  ({ name := secretName, labels := LabelsForVault vr.name, ownerRefs := [],
     data := [(fieldKey, EncodePrivateKeyPEM key),
              (fieldCert, EncodeCertificatePEM crt),
              (fieldCA, EncodeCertificatePEM caCrt)] }, g')

/-- `newEtcdClientTLSSecret` from `tls.go`. -/
def newEtcdClientTLSSecret (vr : VaultService) (caKey : PrivKey) (caCrt : Cert)
    (g : Nat) : Secret × Nat :=
  newTLSSecret vr caKey caCrt "etcd client" (EtcdClientTLSSecretName vr.name)
    [] "etcd-client.key" "etcd-client.crt" "etcd-client-ca.crt" g

/-- `newEtcdServerTLSSecret` from `tls.go`. -/
def newEtcdServerTLSSecret (vr : VaultService) (caKey : PrivKey) (caCrt : Cert)
    (g : Nat) : Secret × Nat :=
  newTLSSecret vr caKey caCrt "etcd server" (EtcdServerTLSSecretName vr.name)
    ["localhost",
     "*." ++ EtcdNameForVault vr.name ++ "." ++ vr.namespc ++ ".svc",
     EtcdNameForVault vr.name ++ "-client",
     EtcdNameForVault vr.name ++ "-client." ++ vr.namespc,
     EtcdNameForVault vr.name ++ "-client." ++ vr.namespc ++ ".svc",
     "*." ++ EtcdNameForVault vr.name ++ "." ++ vr.namespc ++ ".svc." ++ defaultClusterDomain,
     EtcdNameForVault vr.name ++ "-client." ++ vr.namespc ++ ".svc." ++ defaultClusterDomain]
    "server.key" "server.crt" "server-ca.crt" g

/-- `newEtcdPeerTLSSecret` from `tls.go`. -/
def newEtcdPeerTLSSecret (vr : VaultService) (caKey : PrivKey) (caCrt : Cert)
    (g : Nat) : Secret × Nat :=
  newTLSSecret vr caKey caCrt "etcd peer" (EtcdPeerTLSSecretName vr.name)
    ["*." ++ EtcdNameForVault vr.name ++ "." ++ vr.namespc ++ ".svc",
     "*." ++ EtcdNameForVault vr.name ++ "." ++ vr.namespc ++ ".svc." ++ defaultClusterDomain]
    "peer.key" "peer.crt" "peer-ca.crt" g

/-- `newVaultServerTLSSecret` from `tls.go`. -/
def newVaultServerTLSSecret (vr : VaultService) (caKey : PrivKey) (caCrt : Cert)
    (g : Nat) : Secret × Nat :=
  newTLSSecret vr caKey caCrt "vault server" (DefaultVaultServerTLSSecretName vr.name)
    ["localhost",
     "*." ++ vr.namespc ++ ".pod",
     vr.name ++ "." ++ vr.namespc ++ ".svc"]
    ServerTLSKeyName ServerTLSCertName "server-ca.crt" g

/-- `newVaultClientTLSSecret` from `tls.go`: only the CA certificate,
no client key or certificate. -/
def newVaultClientTLSSecret (vr : VaultService) (caCrt : Cert) : Secret :=
  { name := DefaultVaultClientTLSSecretName vr.name,
    labels := LabelsForVault vr.name, ownerRefs := [],
    data := [(CATLSCertName, EncodeCertificatePEM caCrt)] }

/-- `prepareDefaultVaultTLSSecrets` from `tls.go`.  Returns the store
and the advanced key-generation counter, or the wrapped error. -/
def prepareDefaultVaultTLSSecrets (vr : VaultService) (s : Store) (g : Nat) :
    Except String (Store × Nat) :=
  let wrap (e : String) : String := "prepare default vault TLS secrets failed: " ++ e
  let proceed : Except String (Store × Nat) :=
    let (caKey, caCrt, g1) := newCACert g
    let (se0, g2) := newVaultServerTLSSecret vr caKey caCrt g1
    let se := AddOwnerRefToObject se0 (AsOwner vr)
    match s.createTolerant se with
    | .error e => .error (wrap e.msg)
    | .ok s1 =>
      let se := AddOwnerRefToObject (newVaultClientTLSSecret vr caCrt) (AsOwner vr)
      match s1.createTolerant se with
      | .error e => .error (wrap e.msg)
      | .ok s2 => .ok (s2, g2)
  match vr.tls with
  | some static =>
    match s.get? static.serverSecret with
    | some _ => .ok (s, g)
    | none => proceed
  | none => proceed

/-- `prepareEtcdTLSSecrets` from `tls.go`. -/
def prepareEtcdTLSSecrets (vr : VaultService) (s : Store) (g : Nat) :
    Except String (Store × Nat) :=
  let wrap (e : String) : String := "prepare TLS secrets failed: " ++ e
  match s.get? (EtcdClientTLSSecretName vr.name) with
  | some _ => .ok (s, g)
  | none =>
    let (caKey, caCrt, g1) := newCACert g
    let (se0, g2) := newEtcdClientTLSSecret vr caKey caCrt g1
    let se := AddOwnerRefToObject se0 (AsOwner vr)
    match s.createTolerant se with
    | .error e => .error (wrap e.msg)
    | .ok s1 =>
      let (se0, g3) := newEtcdServerTLSSecret vr caKey caCrt g2
      let se := AddOwnerRefToObject se0 (AsOwner vr)
      match s1.createTolerant se with
      | .error e => .error (wrap e.msg)
      | .ok s2 =>
        let (se0, g4) := newEtcdPeerTLSSecret vr caKey caCrt g3
        let se := AddOwnerRefToObject se0 (AsOwner vr)
        match s2.createTolerant se with
        | .error e => .error (wrap e.msg)
        | .ok s3 => .ok (s3, g4)

/-- The `err != nil && !apierrors.IsNotFound(err)` pattern after each
`Delete` in the cleanup functions: not-found is success, any other
error is wrapped with the secret name. -/
def deleteTolerant (fail : String → Option String) (s : Store) (n : String) :
    Except String Store :=
  match Store.delete fail s n with
  | .ok s' => .ok s'
  | .error .notFound => .ok s
  | .error e => .error ("delete secret (" ++ n ++ ") failed: " ++ e.msg)

/-- `cleanupEtcdTLSSecrets` from `tls.go`. -/
def cleanupEtcdTLSSecrets (fail : String → Option String) (vr : VaultService)
    (s : Store) : Except String Store :=
  let wrap (e : String) : String := "cleanup TLS secrets failed: " ++ e
  match deleteTolerant fail s (EtcdClientTLSSecretName vr.name) with
  | .error e => .error (wrap e)
  | .ok s1 =>
    match deleteTolerant fail s1 (EtcdServerTLSSecretName vr.name) with
    | .error e => .error (wrap e)
    | .ok s2 =>
      match deleteTolerant fail s2 (EtcdPeerTLSSecretName vr.name) with
      | .error e => .error (wrap e)
      | .ok s3 => .ok s3

/-- `cleanupDefaultVaultTLSSecrets` from `tls.go`. -/
def cleanupDefaultVaultTLSSecrets (fail : String → Option String)
    (vr : VaultService) (s : Store) : Except String Store :=
  let wrap (e : String) : String := "cleanup vault TLS secrets failed: " ++ e
  match deleteTolerant fail s (DefaultVaultServerTLSSecretName vr.name) with
  | .error e => .error (wrap e)
  | .ok s1 =>
    match deleteTolerant fail s1 (DefaultVaultClientTLSSecretName vr.name) with
    | .error e => .error (wrap e)
    | .ok s2 => .ok s2

/-- The three owner-referenced etcd secrets one invocation of
`prepareEtcdTLSSecrets` builds from generator state `g`: client,
server and peer, all signed by the single CA generated first. -/
def etcdSecretsOf (vr : VaultService) (g : Nat) : Secret × Secret × Secret :=
  let (caKey, caCrt, g1) := newCACert g
  let (se1, g2) := newEtcdClientTLSSecret vr caKey caCrt g1
  let (se2, g3) := newEtcdServerTLSSecret vr caKey caCrt g2
  let (se3, _) := newEtcdPeerTLSSecret vr caKey caCrt g3
  (AddOwnerRefToObject se1 (AsOwner vr),
   AddOwnerRefToObject se2 (AsOwner vr),
   AddOwnerRefToObject se3 (AsOwner vr))

/-- The store `prepareEtcdTLSSecrets` leaves behind when its sentinel
check finds no etcd-client secret: the three etcd secrets added by
idempotent creates. -/
def etcdPreparedStore (vr : VaultService) (s : Store) (g : Nat) : Store :=
  ((s.upsert (etcdSecretsOf vr g).1).upsert
      (etcdSecretsOf vr g).2.1).upsert (etcdSecretsOf vr g).2.2

/-- The two owner-referenced vault secrets one invocation of
`prepareDefaultVaultTLSSecrets` builds from generator state `g`:
server and client, sharing the single CA generated first. -/
def vaultSecretsOf (vr : VaultService) (g : Nat) : Secret × Secret :=
  let (caKey, caCrt, g1) := newCACert g
  let (se1, _) := newVaultServerTLSSecret vr caKey caCrt g1
  (AddOwnerRefToObject se1 (AsOwner vr),
   AddOwnerRefToObject (newVaultClientTLSSecret vr caCrt) (AsOwner vr))

/-- The store `prepareDefaultVaultTLSSecrets` leaves behind when it
proceeds to generation: the vault server and client secrets added by
idempotent creates. -/
def vaultPreparedStore (vr : VaultService) (s : Store) (g : Nat) : Store :=
  (s.upsert (vaultSecretsOf vr g).1).upsert (vaultSecretsOf vr g).2

/-- A concrete two-node cluster resource without a TLS policy, used
for concrete evaluations. -/
def vrC : VaultService :=
  { name := "vault", namespc := "ns", nodes := 2, version := "0.9.1-0",
    tls := none }

/-- A cluster member as the Observer reports it during an upgrade:
identifier, observed software version, and whether it is sealed
(unsealed members are the active node and the standby nodes). -/
structure UNode where
  id : Nat
  ver : String
  sealedB : Bool
deriving DecidableEq, Repr

/-- Modelled from the spec: the state the Rolling Upgrade Orchestrator
acts on (the orchestrator implementation is not among the given source
files; §4.4 of the spec defines it).  `members` is the observed
membership; `inFlight` holds while a torn-down old-version node has
not yet reappeared (states `AwaitingSealedReplacement` /
`AwaitingUnseal` of §4.4). -/
structure UpState where
  members : List UNode
  inFlight : Bool
deriving DecidableEq, Repr

/-- Modelled from the spec (§4.4): one transition of the upgrade
process toward desired version `d`.
* `tearDown`: the orchestrator deletes one old-version node — only
  when no other replacement is in flight and every member is observed
  unsealed (the `AwaitingPromotion` gate: replacements proceed one at
  a time, and only once the previous replacement has been unsealed and
  promoted, so at least `nodes − 1` unsealed members remain).
* `reappear`: the scheduling collaborator recreates the replaced node,
  which reappears sealed and running the new version.
* `unseal`: an external actor unseals a sealed member. -/
inductive UpStep (d : String) : UpState → UpState → Prop
  | tearDown (st : UpState) (i : UNode) :
      st.inFlight = false →
      i ∈ st.members →
      i.ver ≠ d →
      (∀ n ∈ st.members, n.sealedB = false) →
      UpStep d st ⟨st.members.erase i, true⟩
  | reappear (st : UpState) (j : Nat) :
      st.inFlight = true →
      UpStep d st ⟨st.members ++ [⟨j, d, true⟩], false⟩
  | unsealNode (st : UpState) (pre post : List UNode) (n : UNode) :
      st.members = pre ++ n :: post →
      n.sealedB = true →
      UpStep d st ⟨pre ++ { n with sealedB := false } :: post, st.inFlight⟩

/-- Reachability of the upgrade process: finitely many reconcile
passes and environment events. -/
def UpReach (d : String) : UpState → UpState → Prop :=
  Relation.ReflTransGen (UpStep d)

/-- A well-formed upgrade start: full membership, no replacement in
flight, at least one member unsealed. -/
def UpInit (N : Nat) (st : UpState) : Prop :=
  st.inFlight = false ∧ st.members.length = N ∧
    ∃ n ∈ st.members, n.sealedB = false

/-- The invariant of the upgrade process: membership is short of the
desired count only while a replacement is in flight (and then by
exactly one node), and some member is always unsealed. -/
def UpInv (N : Nat) (st : UpState) : Prop :=
  st.members.length = (if st.inFlight then N - 1 else N) ∧
    ∃ n ∈ st.members, n.sealedB = false

/-- §4.4's `Complete` observation: no replacement in flight and every
member reports the desired version. -/
def UpComplete (d : String) (st : UpState) : Prop :=
  st.inFlight = false ∧ ∀ n ∈ st.members, n.ver = d

theorem Store.get?_append (s t : Store) (n : String) :
    (s ++ t).get? n = ((s.get? n).orElse (fun _ => t.get? n)) := by
  induction s with
  | nil => simp [Store.get?]
  | cons kv rest ih =>
    obtain ⟨k, v⟩ := kv
    by_cases h : k = n <;> simp [Store.get?, h, ih]

theorem Store.get?_singleton (n m : String) (se : Secret) :
    Store.get? [(n, se)] m = if n = m then some se else none := by
  by_cases h : n = m <;> simp [Store.get?, h]

theorem Store.get?_append_singleton (s : Store) (n m : String) (se : Secret) :
    (s ++ [(n, se)]).get? m =
      ((s.get? m).orElse (fun _ => if n = m then some se else none)) := by
  rw [Store.get?_append, Store.get?_singleton]

theorem Store.upsert_of_present (s : Store) (se : Secret)
    (h : (s.get? se.name).isSome) : s.upsert se = s := by
  unfold Store.upsert
  cases hse : s.get? se.name with
  | some x => rfl
  | none => rw [hse] at h; simp at h

theorem Store.upsert_of_absent (s : Store) (se : Secret)
    (h : s.get? se.name = none) : s.upsert se = s ++ [(se.name, se)] := by
  unfold Store.upsert
  rw [h]

theorem Store.get?_upsert_some {s : Store} {n : String} {x : Secret}
    (se : Secret) (h : s.get? n = some x) : (s.upsert se).get? n = some x := by
  unfold Store.upsert
  cases hse : s.get? se.name with
  | some y => exact h
  | none => rw [Store.get?_append_singleton, h]; rfl

theorem Store.get?_upsert_isSome {s : Store} {n : String}
    (se : Secret) (h : (s.get? n).isSome) : ((s.upsert se).get? n).isSome := by
  obtain ⟨x, hx⟩ := Option.isSome_iff_exists.mp h
  rw [Store.get?_upsert_some se hx]
  rfl

theorem Store.get?_upsert_name (s : Store) (se : Secret) :
    ((s.upsert se).get? se.name).isSome := by
  unfold Store.upsert
  cases hse : s.get? se.name with
  | some y => rw [hse]; rfl
  | none => rw [Store.get?_append_singleton, hse]; simp

theorem Store.get?_upsert_rev {s : Store} {se : Secret} {n : String} {x : Secret}
    (h : (s.upsert se).get? n = some x) :
    s.get? n = some x ∨ (n = se.name ∧ x = se) := by
  unfold Store.upsert at h
  cases hse : s.get? se.name with
  | some y => rw [hse] at h; exact Or.inl h
  | none =>
    rw [hse, Store.get?_append_singleton] at h
    cases hs : s.get? n with
    | some y => rw [hs] at h; exact Or.inl h
    | none =>
      rw [hs] at h
      simp only [Option.orElse] at h
      by_cases he : se.name = n
      · right
        rw [he] at h
        simp at h
        exact ⟨he.symm, h.symm⟩
      · rw [if_neg he] at h
        simp at h

theorem Store.get?_upsert_of_absent_ne {s : Store} (se : Secret) {n : String}
    (hne : se.name ≠ n) (h : s.get? n = none) : (s.upsert se).get? n = none := by
  unfold Store.upsert
  cases hse : s.get? se.name with
  | some y => exact h
  | none => rw [Store.get?_append_singleton, h]; simp [hne]

theorem Store.createTolerant_eq (s : Store) (se : Secret) :
    s.createTolerant se = .ok (s.upsert se) := by
  unfold Store.createTolerant Store.create Store.upsert
  cases hse : s.get? se.name <;> simp

theorem appendLeft_ne (p a b : String) (h : a.data ≠ b.data) :
    p ++ a ≠ p ++ b := by
  intro he
  apply h
  have hd := congrArg String.data he
  rw [String.data_append, String.data_append] at hd
  exact List.append_cancel_left hd

theorem etcd_client_ne_server (name : String) :
    EtcdClientTLSSecretName name ≠ EtcdServerTLSSecretName name :=
  appendLeft_ne name "-etcd-client-tls" "-etcd-server-tls" (by decide)

theorem etcd_client_ne_peer (name : String) :
    EtcdClientTLSSecretName name ≠ EtcdPeerTLSSecretName name :=
  appendLeft_ne name "-etcd-client-tls" "-etcd-peer-tls" (by decide)

theorem etcd_server_ne_peer (name : String) :
    EtcdServerTLSSecretName name ≠ EtcdPeerTLSSecretName name :=
  appendLeft_ne name "-etcd-server-tls" "-etcd-peer-tls" (by decide)

theorem vault_server_ne_client (name : String) :
    DefaultVaultServerTLSSecretName name ≠ DefaultVaultClientTLSSecretName name :=
  appendLeft_ne name "-default-vault-server-tls" "-default-vault-client-tls" (by decide)

theorem etcdSecrets_name_client (vr : VaultService) (g : Nat) :
    (etcdSecretsOf vr g).1.name = EtcdClientTLSSecretName vr.name := rfl

theorem etcdSecrets_name_server (vr : VaultService) (g : Nat) :
    (etcdSecretsOf vr g).2.1.name = EtcdServerTLSSecretName vr.name := rfl

theorem etcdSecrets_name_peer (vr : VaultService) (g : Nat) :
    (etcdSecretsOf vr g).2.2.name = EtcdPeerTLSSecretName vr.name := rfl

theorem vaultSecrets_name_server (vr : VaultService) (g : Nat) :
    (vaultSecretsOf vr g).1.name = DefaultVaultServerTLSSecretName vr.name := rfl

theorem vaultSecrets_name_client (vr : VaultService) (g : Nat) :
    (vaultSecretsOf vr g).2.name = DefaultVaultClientTLSSecretName vr.name := rfl

theorem etcdSecrets_owner_client (vr : VaultService) (g : Nat) :
    (etcdSecretsOf vr g).1.ownerRefs = [AsOwner vr] := rfl

theorem etcdSecrets_owner_server (vr : VaultService) (g : Nat) :
    (etcdSecretsOf vr g).2.1.ownerRefs = [AsOwner vr] := rfl

theorem etcdSecrets_owner_peer (vr : VaultService) (g : Nat) :
    (etcdSecretsOf vr g).2.2.ownerRefs = [AsOwner vr] := rfl

theorem vaultSecrets_owner_server (vr : VaultService) (g : Nat) :
    (vaultSecretsOf vr g).1.ownerRefs = [AsOwner vr] := rfl

theorem vaultSecrets_owner_client (vr : VaultService) (g : Nat) :
    (vaultSecretsOf vr g).2.ownerRefs = [AsOwner vr] := rfl

theorem etcdSecrets_ca_client (vr : VaultService) (g : Nat) :
    lookupData (etcdSecretsOf vr g).1.data "etcd-client-ca.crt"
      = some (EncodeCertificatePEM (newCACert g).2.1) := by
  simp [etcdSecretsOf, newEtcdClientTLSSecret, newTLSSecret, newKeyAndCert,
    newCACert, NewPrivateKey, AddOwnerRefToObject, lookupData]

theorem etcdSecrets_ca_server (vr : VaultService) (g : Nat) :
    lookupData (etcdSecretsOf vr g).2.1.data "server-ca.crt"
      = some (EncodeCertificatePEM (newCACert g).2.1) := by
  simp [etcdSecretsOf, newEtcdServerTLSSecret, newTLSSecret, newKeyAndCert,
    newCACert, NewPrivateKey, AddOwnerRefToObject, lookupData]

theorem etcdSecrets_ca_peer (vr : VaultService) (g : Nat) :
    lookupData (etcdSecretsOf vr g).2.2.data "peer-ca.crt"
      = some (EncodeCertificatePEM (newCACert g).2.1) := by
  simp [etcdSecretsOf, newEtcdPeerTLSSecret, newTLSSecret, newKeyAndCert,
    newCACert, NewPrivateKey, AddOwnerRefToObject, lookupData]

theorem vaultSecrets_ca_server (vr : VaultService) (g : Nat) :
    lookupData (vaultSecretsOf vr g).1.data "server-ca.crt"
      = some (EncodeCertificatePEM (newCACert g).2.1) := by
  simp [vaultSecretsOf, newVaultServerTLSSecret, newTLSSecret, newKeyAndCert,
    newCACert, NewPrivateKey, AddOwnerRefToObject, lookupData,
    ServerTLSKeyName, ServerTLSCertName]

theorem vaultSecrets_ca_client (vr : VaultService) (g : Nat) :
    lookupData (vaultSecretsOf vr g).2.data CATLSCertName
      = some (EncodeCertificatePEM (newCACert g).2.1) := by
  simp [vaultSecretsOf, newVaultClientTLSSecret, newCACert, NewPrivateKey,
    AddOwnerRefToObject, lookupData]

theorem prepareEtcd_eq_present {vr : VaultService} {s : Store} {x : Secret}
    (g : Nat) (h : s.get? (EtcdClientTLSSecretName vr.name) = some x) :
    prepareEtcdTLSSecrets vr s g = .ok (s, g) := by
  unfold prepareEtcdTLSSecrets
  rw [h]

theorem prepareEtcd_eq_absent {vr : VaultService} {s : Store}
    (g : Nat) (h : s.get? (EtcdClientTLSSecretName vr.name) = none) :
    prepareEtcdTLSSecrets vr s g = .ok (etcdPreparedStore vr s g, g + 4) := by
  unfold prepareEtcdTLSSecrets etcdPreparedStore etcdSecretsOf
  rw [h]
  simp only [Store.createTolerant_eq, newCACert, NewPrivateKey, newKeyAndCert,
    newEtcdClientTLSSecret, newEtcdServerTLSSecret, newEtcdPeerTLSSecret,
    newTLSSecret]

theorem prepareVault_eq_present {vr : VaultService} {s : Store}
    {static : StaticTLS} {x : Secret} (g : Nat) (htls : vr.tls = some static)
    (h : s.get? static.serverSecret = some x) :
    prepareDefaultVaultTLSSecrets vr s g = .ok (s, g) := by
  unfold prepareDefaultVaultTLSSecrets
  rw [htls]
  dsimp only
  rw [h]

theorem prepareVault_eq_none {vr : VaultService} {s : Store}
    (g : Nat) (htls : vr.tls = none) :
    prepareDefaultVaultTLSSecrets vr s g = .ok (vaultPreparedStore vr s g, g + 2) := by
  unfold prepareDefaultVaultTLSSecrets vaultPreparedStore vaultSecretsOf
  rw [htls]
  simp only [Store.createTolerant_eq, newCACert, NewPrivateKey, newKeyAndCert,
    newVaultServerTLSSecret, newVaultClientTLSSecret, newTLSSecret]

theorem etcdPrepared_preserves {vr : VaultService} {s : Store} {g : Nat}
    {n : String} {x : Secret} (h : s.get? n = some x) :
    (etcdPreparedStore vr s g).get? n = some x := by
  unfold etcdPreparedStore
  exact Store.get?_upsert_some _ (Store.get?_upsert_some _ (Store.get?_upsert_some _ h))

theorem etcdPrepared_sentinel (vr : VaultService) (s : Store) (g : Nat) :
    ((etcdPreparedStore vr s g).get? (EtcdClientTLSSecretName vr.name)).isSome := by
  unfold etcdPreparedStore
  exact Store.get?_upsert_isSome _ (Store.get?_upsert_isSome _ (Store.get?_upsert_name s _))

theorem etcdPrepared_owner {vr : VaultService} {s : Store} {g : Nat}
    {n : String} {x : Secret} (h : (etcdPreparedStore vr s g).get? n = some x)
    (habs : s.get? n = none) : AsOwner vr ∈ x.ownerRefs := by
  unfold etcdPreparedStore at h
  rcases Store.get?_upsert_rev h with h2 | ⟨hn, hx⟩
  · rcases Store.get?_upsert_rev h2 with h3 | ⟨hn, hx⟩
    · rcases Store.get?_upsert_rev h3 with h4 | ⟨hn, hx⟩
      · rw [habs] at h4; exact absurd h4 (by simp)
      · rw [hx, etcdSecrets_owner_client]; exact List.mem_singleton.mpr rfl
    · rw [hx, etcdSecrets_owner_server]; exact List.mem_singleton.mpr rfl
  · rw [hx, etcdSecrets_owner_peer]; exact List.mem_singleton.mpr rfl

theorem vaultPrepared_preserves {vr : VaultService} {s : Store} {g : Nat}
    {n : String} {x : Secret} (h : s.get? n = some x) :
    (vaultPreparedStore vr s g).get? n = some x := by
  unfold vaultPreparedStore
  exact Store.get?_upsert_some _ (Store.get?_upsert_some _ h)

theorem vaultPrepared_has_server (vr : VaultService) (s : Store) (g : Nat) :
    ((vaultPreparedStore vr s g).get? (DefaultVaultServerTLSSecretName vr.name)).isSome := by
  unfold vaultPreparedStore
  exact Store.get?_upsert_isSome _ (Store.get?_upsert_name s _)

theorem vaultPrepared_has_client (vr : VaultService) (s : Store) (g : Nat) :
    ((vaultPreparedStore vr s g).get? (DefaultVaultClientTLSSecretName vr.name)).isSome := by
  unfold vaultPreparedStore
  exact Store.get?_upsert_name _ _

theorem vaultPrepared_owner {vr : VaultService} {s : Store} {g : Nat}
    {n : String} {x : Secret} (h : (vaultPreparedStore vr s g).get? n = some x)
    (habs : s.get? n = none) : AsOwner vr ∈ x.ownerRefs := by
  unfold vaultPreparedStore at h
  rcases Store.get?_upsert_rev h with h2 | ⟨hn, hx⟩
  · rcases Store.get?_upsert_rev h2 with h3 | ⟨hn, hx⟩
    · rw [habs] at h3; exact absurd h3 (by simp)
    · rw [hx, vaultSecrets_owner_server]; exact List.mem_singleton.mpr rfl
  · rw [hx, vaultSecrets_owner_client]; exact List.mem_singleton.mpr rfl

theorem vaultPrepared_stable {vr : VaultService} {s : Store} (g : Nat)
    (hA : (s.get? (DefaultVaultServerTLSSecretName vr.name)).isSome)
    (hB : (s.get? (DefaultVaultClientTLSSecretName vr.name)).isSome) :
    vaultPreparedStore vr s g = s := by
  unfold vaultPreparedStore
  rw [Store.upsert_of_present _ _ (Store.get?_upsert_isSome _ hB),
    Store.upsert_of_present _ _ hA]

theorem Store.get?_upsert_self (s : Store) (se : Secret)
    (h : s.get? se.name = none) : (s.upsert se).get? se.name = some se := by
  rw [Store.upsert_of_absent _ _ h, Store.get?_append_singleton, h]
  simp

theorem etcdPrepared_get_client {vr : VaultService} {s : Store} {g : Nat}
    (h1 : s.get? (EtcdClientTLSSecretName vr.name) = none) :
    (etcdPreparedStore vr s g).get? (EtcdClientTLSSecretName vr.name)
      = some (etcdSecretsOf vr g).1 := by
  unfold etcdPreparedStore
  exact Store.get?_upsert_some _ (Store.get?_upsert_some _
    (Store.get?_upsert_self s _ h1))

theorem etcdPrepared_get_server {vr : VaultService} {s : Store} {g : Nat}
    (h2 : s.get? (EtcdServerTLSSecretName vr.name) = none) :
    (etcdPreparedStore vr s g).get? (EtcdServerTLSSecretName vr.name)
      = some (etcdSecretsOf vr g).2.1 := by
  unfold etcdPreparedStore
  apply Store.get?_upsert_some
  apply Store.get?_upsert_self
  exact Store.get?_upsert_of_absent_ne _ (etcd_client_ne_server vr.name) h2

theorem etcdPrepared_get_peer {vr : VaultService} {s : Store} {g : Nat}
    (h3 : s.get? (EtcdPeerTLSSecretName vr.name) = none) :
    (etcdPreparedStore vr s g).get? (EtcdPeerTLSSecretName vr.name)
      = some (etcdSecretsOf vr g).2.2 := by
  unfold etcdPreparedStore
  apply Store.get?_upsert_self
  apply Store.get?_upsert_of_absent_ne _ (etcd_server_ne_peer vr.name)
  exact Store.get?_upsert_of_absent_ne _ (etcd_client_ne_peer vr.name) h3

theorem vaultPrepared_get_server {vr : VaultService} {s : Store} {g : Nat}
    (h1 : s.get? (DefaultVaultServerTLSSecretName vr.name) = none) :
    (vaultPreparedStore vr s g).get? (DefaultVaultServerTLSSecretName vr.name)
      = some (vaultSecretsOf vr g).1 := by
  unfold vaultPreparedStore
  exact Store.get?_upsert_some _ (Store.get?_upsert_self s _ h1)

theorem vaultPrepared_get_client {vr : VaultService} {s : Store} {g : Nat}
    (h2 : s.get? (DefaultVaultClientTLSSecretName vr.name) = none) :
    (vaultPreparedStore vr s g).get? (DefaultVaultClientTLSSecretName vr.name)
      = some (vaultSecretsOf vr g).2 := by
  unfold vaultPreparedStore
  apply Store.get?_upsert_self
  exact Store.get?_upsert_of_absent_ne _ (vault_server_ne_client vr.name) h2

theorem prepareVault_eq_static_absent {vr : VaultService} {s : Store}
    {static : StaticTLS} (g : Nat) (htls : vr.tls = some static)
    (h : s.get? static.serverSecret = none) :
    prepareDefaultVaultTLSSecrets vr s g = .ok (vaultPreparedStore vr s g, g + 2) := by
  unfold prepareDefaultVaultTLSSecrets vaultPreparedStore vaultSecretsOf
  rw [htls]
  dsimp only
  rw [h]
  simp only [Store.createTolerant_eq, newCACert, NewPrivateKey, newKeyAndCert,
    newVaultServerTLSSecret, newVaultClientTLSSecret, newTLSSecret]

theorem data_head_append (s t : String) (c : Char) (h : s.data.head? = some c) :
    (s ++ t).data.head? = some c := by
  rw [String.data_append]
  cases hs : s.data with
  | nil => rw [hs] at h; simp at h
  | cons a l => rw [hs] at h; simp at h; simp [h]

theorem star_head (y : String) : ("*." ++ y).data.head? = some (Char.ofNat 42) := by
  rw [String.data_append]
  rfl

theorem ne_localhost_of_head_star (sStr : String)
    (h : sStr.data.head? = some (Char.ofNat 42)) : sStr ≠ "localhost" := by
  intro he
  rw [he] at h
  exact absurd h (by decide)

/-- C4: SAN construction is role-specific and reproduces exactly: the
vault server certificate's SANs are exactly localhost, the wildcard
over the pod network namespace and the cluster's service DNS name; the
etcd server certificate's SANs are exactly localhost plus the wildcard
pod-network names and the per-node and cluster-domain-qualified
service names; and the etcd peer certificate's SANs are exactly the
wildcard pod-network and cluster-domain names, with no localhost
entry. -/
theorem san_lists_role_specific (vr : VaultService) (caKey : PrivKey)
    (caCrt : Cert) (g : Nat) :
    certSANs (newVaultServerTLSSecret vr caKey caCrt g).1 ServerTLSCertName
      = some ["localhost", "*." ++ vr.namespc ++ ".pod",
              vr.name ++ "." ++ vr.namespc ++ ".svc"] ∧
    certSANs (newEtcdServerTLSSecret vr caKey caCrt g).1 "server.crt"
      = some ["localhost",
              "*." ++ EtcdNameForVault vr.name ++ "." ++ vr.namespc ++ ".svc",
              EtcdNameForVault vr.name ++ "-client",
              EtcdNameForVault vr.name ++ "-client." ++ vr.namespc,
              EtcdNameForVault vr.name ++ "-client." ++ vr.namespc ++ ".svc",
              "*." ++ EtcdNameForVault vr.name ++ "." ++ vr.namespc ++ ".svc."
                ++ defaultClusterDomain,
              EtcdNameForVault vr.name ++ "-client." ++ vr.namespc ++ ".svc."
                ++ defaultClusterDomain] ∧
    certSANs (newEtcdPeerTLSSecret vr caKey caCrt g).1 "peer.crt"
      = some ["*." ++ EtcdNameForVault vr.name ++ "." ++ vr.namespc ++ ".svc",
              "*." ++ EtcdNameForVault vr.name ++ "." ++ vr.namespc ++ ".svc."
                ++ defaultClusterDomain] ∧
    (∀ sans, certSANs (newEtcdPeerTLSSecret vr caKey caCrt g).1 "peer.crt"
        = some sans → "localhost" ∉ sans) := by
  refine ⟨?_, ?_, ?_, ?_⟩
  · simp [certSANs, newVaultServerTLSSecret, newTLSSecret, newKeyAndCert,
      NewSignedCertificate, NewAltNames, lookupData, EncodeCertificatePEM,
      ServerTLSKeyName, ServerTLSCertName]
  · simp [certSANs, newEtcdServerTLSSecret, newTLSSecret, newKeyAndCert,
      NewSignedCertificate, NewAltNames, lookupData, EncodeCertificatePEM]
  · simp [certSANs, newEtcdPeerTLSSecret, newTLSSecret, newKeyAndCert,
      NewSignedCertificate, NewAltNames, lookupData, EncodeCertificatePEM]
  · intro sans hs
    have he : sans =
        ["*." ++ EtcdNameForVault vr.name ++ "." ++ vr.namespc ++ ".svc",
         "*." ++ EtcdNameForVault vr.name ++ "." ++ vr.namespc ++ ".svc."
           ++ defaultClusterDomain] := by
      have h2 : certSANs (newEtcdPeerTLSSecret vr caKey caCrt g).1 "peer.crt"
          = some ["*." ++ EtcdNameForVault vr.name ++ "." ++ vr.namespc ++ ".svc",
                  "*." ++ EtcdNameForVault vr.name ++ "." ++ vr.namespc ++ ".svc."
                    ++ defaultClusterDomain] := by
        simp [certSANs, newEtcdPeerTLSSecret, newTLSSecret, newKeyAndCert,
          NewSignedCertificate, NewAltNames, lookupData, EncodeCertificatePEM]
      rw [h2] at hs
      exact (Option.some.injEq _ _).mp hs.symm
    subst he
    intro hmem
    rcases List.mem_cons.mp hmem with h1 | hmem2
    · exact ne_localhost_of_head_star _
        (data_head_append _ _ _ (data_head_append _ _ _ (data_head_append _ _ _
          (star_head (EtcdNameForVault vr.name))))) h1.symm
    · rcases List.mem_cons.mp hmem2 with h2 | hmem3
      · exact ne_localhost_of_head_star _
          (data_head_append _ _ _ (data_head_append _ _ _ (data_head_append _ _ _
            (data_head_append _ _ _ (star_head (EtcdNameForVault vr.name)))))) h2.symm
      · exact absurd hmem3 (List.not_mem_nil _)

/-- C6: the vault client credential bundle carries no private key and
no leaf certificate: its data map has exactly one entry, the CA
certificate under the key `ca.crt`. -/
theorem vault_client_bundle_ca_only (vr : VaultService) (caCrt : Cert) :
    (newVaultClientTLSSecret vr caCrt).data
        = [(CATLSCertName, EncodeCertificatePEM caCrt)] ∧
    CATLSCertName = "ca.crt" := ⟨rfl, rfl⟩

/-- C8: the three etcd secrets use exactly the fixed per-role data key
names, and every value stored under those keys is PEM-encoded. -/
theorem etcd_bundle_keys_fixed (vr : VaultService) (caKey : PrivKey)
    (caCrt : Cert) (g : Nat) :
    dataKeys (newEtcdClientTLSSecret vr caKey caCrt g).1
        = ["etcd-client.key", "etcd-client.crt", "etcd-client-ca.crt"] ∧
    dataKeys (newEtcdServerTLSSecret vr caKey caCrt g).1
        = ["server.key", "server.crt", "server-ca.crt"] ∧
    dataKeys (newEtcdPeerTLSSecret vr caKey caCrt g).1
        = ["peer.key", "peer.crt", "peer-ca.crt"] ∧
    (newEtcdClientTLSSecret vr caKey caCrt g).1.data.all (fun p => p.2.isPem) = true ∧
    (newEtcdServerTLSSecret vr caKey caCrt g).1.data.all (fun p => p.2.isPem) = true ∧
    (newEtcdPeerTLSSecret vr caKey caCrt g).1.data.all (fun p => p.2.isPem) = true := by
  refine ⟨rfl, rfl, rfl, ?_, ?_, ?_⟩ <;>
    simp [newEtcdClientTLSSecret, newEtcdServerTLSSecret, newEtcdPeerTLSSecret,
      newTLSSecret, newKeyAndCert, EncodePrivateKeyPEM, EncodeCertificatePEM,
      PemValue.isPem]

/-- C7: TLS round-trip — for every credential bundle the Issuer
produces (leaf key and certificate generated against the CA pair
returned by `newCACert`), the bundle's certificate verified against
the CA certificate stored in the same bundle validates successfully,
and the CA certificate itself validates as self-signed. -/
theorem bundle_roundtrip (vr : VaultService) (g h : Nat) (caKey : PrivKey)
    (caCrt : Cert) (g1 : Nat) (hca : newCACert g = (caKey, caCrt, g1)) :
    selfSigned caCrt = true ∧
    (∃ c, lookupData (newEtcdClientTLSSecret vr caKey caCrt h).1.data "etcd-client.crt"
        = some (EncodeCertificatePEM c) ∧
      lookupData (newEtcdClientTLSSecret vr caKey caCrt h).1.data "etcd-client-ca.crt"
        = some (EncodeCertificatePEM caCrt) ∧
      verifiedBy c caCrt = true) ∧
    (∃ c, lookupData (newEtcdServerTLSSecret vr caKey caCrt h).1.data "server.crt"
        = some (EncodeCertificatePEM c) ∧
      lookupData (newEtcdServerTLSSecret vr caKey caCrt h).1.data "server-ca.crt"
        = some (EncodeCertificatePEM caCrt) ∧
      verifiedBy c caCrt = true) ∧
    (∃ c, lookupData (newEtcdPeerTLSSecret vr caKey caCrt h).1.data "peer.crt"
        = some (EncodeCertificatePEM c) ∧
      lookupData (newEtcdPeerTLSSecret vr caKey caCrt h).1.data "peer-ca.crt"
        = some (EncodeCertificatePEM caCrt) ∧
      verifiedBy c caCrt = true) ∧
    (∃ c, lookupData (newVaultServerTLSSecret vr caKey caCrt h).1.data ServerTLSCertName
        = some (EncodeCertificatePEM c) ∧
      lookupData (newVaultServerTLSSecret vr caKey caCrt h).1.data "server-ca.crt"
        = some (EncodeCertificatePEM caCrt) ∧
      verifiedBy c caCrt = true) ∧
    lookupData (newVaultClientTLSSecret vr caCrt).data CATLSCertName
      = some (EncodeCertificatePEM caCrt) := by
  unfold newCACert NewPrivateKey NewSelfSignedCACertificate at hca
  dsimp only at hca
  injection hca with hk h2
  injection h2 with hc hg
  subst hk
  subst hc
  refine ⟨by simp [selfSigned], ?_, ?_, ?_, ?_, rfl⟩ <;>
    exact ⟨_, rfl, rfl, by simp [verifiedBy, NewSignedCertificate]⟩

/-- Witness for C7 at a concrete generator state. -/
theorem bundle_roundtrip_witness : selfSigned (newCACert 0).2.1 = true :=
  (bundle_roundtrip vrC 0 5 ⟨0⟩ (newCACert 0).2.1 1 rfl).1

/-- C10: the existence check before bundle creation probes a single
sentinel secret per group: `prepareEtcdTLSSecrets` returns success
immediately when the etcd-client secret exists, leaving the store
untouched (so missing server/peer secrets are not recreated);
`prepareDefaultVaultTLSSecrets` performs its check only when a TLS
policy is configured, probing the policy's static server-secret name,
and otherwise always proceeds to generation (the generator advances)
relying on already-exists tolerance. -/
theorem prepare_sentinel_check (vr : VaultService) (s : Store) (g : Nat) :
    (∀ x, s.get? (EtcdClientTLSSecretName vr.name) = some x →
      prepareEtcdTLSSecrets vr s g = .ok (s, g)) ∧
    (∀ static x, vr.tls = some static → s.get? static.serverSecret = some x →
      prepareDefaultVaultTLSSecrets vr s g = .ok (s, g)) ∧
    (vr.tls = none →
      prepareDefaultVaultTLSSecrets vr s g = .ok (vaultPreparedStore vr s g, g + 2) ∧
      ((vaultPreparedStore vr s g).get? (DefaultVaultServerTLSSecretName vr.name)).isSome ∧
      ((vaultPreparedStore vr s g).get? (DefaultVaultClientTLSSecretName vr.name)).isSome) := by
  refine ⟨?_, ?_, ?_⟩
  · intro x hx
    exact prepareEtcd_eq_present g hx
  · intro static x htls hx
    exact prepareVault_eq_present g htls hx
  · intro htls
    exact ⟨prepareVault_eq_none g htls, vaultPrepared_has_server vr s g,
      vaultPrepared_has_client vr s g⟩

/-- Witness for C10: a store holding only the etcd-client sentinel is
returned unchanged, so the absent server and peer secrets stay
absent. -/
theorem prepare_sentinel_check_witness :
    prepareEtcdTLSSecrets vrC
        [(EtcdClientTLSSecretName vrC.name, (etcdSecretsOf vrC 0).1)] 9
      = .ok ([(EtcdClientTLSSecretName vrC.name, (etcdSecretsOf vrC 0).1)], 9) :=
  (prepare_sentinel_check vrC
      [(EtcdClientTLSSecretName vrC.name, (etcdSecretsOf vrC 0).1)] 9).1 _ rfl

/-- C2: calling an ensure-operation twice with identical inputs yields
the same stored bundles and only one underlying creation per secret —
the second call changes no stored state, and every secret present
before a call is still mapped to the same value afterwards
(pre-existing secrets are left untouched because an already-exists
error on creation is treated as success). -/
theorem prepare_ensure_idempotent (vr : VaultService) (s s1 : Store)
    (g g1 g2 : Nat) :
    (prepareEtcdTLSSecrets vr s g = .ok (s1, g1) →
      (∃ g3, prepareEtcdTLSSecrets vr s1 g2 = .ok (s1, g3)) ∧
      ∀ n x, s.get? n = some x → s1.get? n = some x) ∧
    (prepareDefaultVaultTLSSecrets vr s g = .ok (s1, g1) →
      (∃ g3, prepareDefaultVaultTLSSecrets vr s1 g2 = .ok (s1, g3)) ∧
      ∀ n x, s.get? n = some x → s1.get? n = some x) := by
  constructor
  · intro h
    cases hs : s.get? (EtcdClientTLSSecretName vr.name) with
    | some x =>
      rw [prepareEtcd_eq_present g hs] at h
      injection h with h'
      injection h' with h1 h2
      subst h1
      exact ⟨⟨g2, prepareEtcd_eq_present g2 hs⟩, fun n x hn => hn⟩
    | none =>
      rw [prepareEtcd_eq_absent g hs] at h
      injection h with h'
      injection h' with h1 h2
      subst h1
      constructor
      · obtain ⟨x, hx⟩ := Option.isSome_iff_exists.mp (etcdPrepared_sentinel vr s g)
        exact ⟨g2, prepareEtcd_eq_present g2 hx⟩
      · intro n x hn
        exact etcdPrepared_preserves hn
  · intro h
    cases htls : vr.tls with
    | none =>
      rw [prepareVault_eq_none g htls] at h
      injection h with h'
      injection h' with h1 h2
      subst h1
      constructor
      · refine ⟨g2 + 2, ?_⟩
        rw [prepareVault_eq_none g2 htls,
          vaultPrepared_stable g2 (vaultPrepared_has_server vr s g)
            (vaultPrepared_has_client vr s g)]
      · intro n x hn
        exact vaultPrepared_preserves hn
    | some static =>
      cases hst : s.get? static.serverSecret with
      | some x =>
        rw [prepareVault_eq_present g htls hst] at h
        injection h with h'
        injection h' with h1 h2
        subst h1
        exact ⟨⟨g2, prepareVault_eq_present g2 htls hst⟩, fun n x hn => hn⟩
      | none =>
        rw [prepareVault_eq_static_absent g htls hst] at h
        injection h with h'
        injection h' with h1 h2
        subst h1
        constructor
        · cases hst2 : (vaultPreparedStore vr s g).get? static.serverSecret with
          | some y => exact ⟨g2, prepareVault_eq_present g2 htls hst2⟩
          | none =>
            refine ⟨g2 + 2, ?_⟩
            rw [prepareVault_eq_static_absent g2 htls hst2,
              vaultPrepared_stable g2 (vaultPrepared_has_server vr s g)
                (vaultPrepared_has_client vr s g)]
        · intro n x hn
          exact vaultPrepared_preserves hn

/-- Witness for C2: a second etcd ensure-call on the store produced by
the first call leaves that store unchanged. -/
theorem prepare_ensure_idempotent_witness :
    ∃ g3, prepareEtcdTLSSecrets vrC (etcdPreparedStore vrC [] 0) 7
        = .ok (etcdPreparedStore vrC [] 0, g3) :=
  ((prepare_ensure_idempotent vrC [] (etcdPreparedStore vrC [] 0) 0 4 7).1
    (prepareEtcd_eq_absent 0 rfl)).1

/-- C9: every bundle secret newly created by the prepare operations
carries an owner reference to the cluster resource, and no operation
updates an existing bundle secret in place — every secret present
before the call maps to the same value afterwards. -/
theorem prepare_owner_and_immutable (vr : VaultService) (s s1 : Store)
    (g g1 : Nat) :
    (prepareEtcdTLSSecrets vr s g = .ok (s1, g1) →
      (∀ n x, s.get? n = some x → s1.get? n = some x) ∧
      (∀ n x, s1.get? n = some x → s.get? n = none → AsOwner vr ∈ x.ownerRefs)) ∧
    (prepareDefaultVaultTLSSecrets vr s g = .ok (s1, g1) →
      (∀ n x, s.get? n = some x → s1.get? n = some x) ∧
      (∀ n x, s1.get? n = some x → s.get? n = none → AsOwner vr ∈ x.ownerRefs)) := by
  constructor
  · intro h
    cases hs : s.get? (EtcdClientTLSSecretName vr.name) with
    | some x =>
      rw [prepareEtcd_eq_present g hs] at h
      injection h with h'
      injection h' with h1 h2
      subst h1
      refine ⟨fun n x hn => hn, fun n x hn habs => ?_⟩
      rw [habs] at hn
      exact absurd hn (by simp)
    | none =>
      rw [prepareEtcd_eq_absent g hs] at h
      injection h with h'
      injection h' with h1 h2
      subst h1
      exact ⟨fun n x hn => etcdPrepared_preserves hn,
        fun n x hn habs => etcdPrepared_owner hn habs⟩
  · intro h
    cases htls : vr.tls with
    | none =>
      rw [prepareVault_eq_none g htls] at h
      injection h with h'
      injection h' with h1 h2
      subst h1
      exact ⟨fun n x hn => vaultPrepared_preserves hn,
        fun n x hn habs => vaultPrepared_owner hn habs⟩
    | some static =>
      cases hst : s.get? static.serverSecret with
      | some x =>
        rw [prepareVault_eq_present g htls hst] at h
        injection h with h'
        injection h' with h1 h2
        subst h1
        refine ⟨fun n x hn => hn, fun n x hn habs => ?_⟩
        rw [habs] at hn
        exact absurd hn (by simp)
      | none =>
        rw [prepareVault_eq_static_absent g htls hst] at h
        injection h with h'
        injection h' with h1 h2
        subst h1
        exact ⟨fun n x hn => vaultPrepared_preserves hn,
          fun n x hn habs => vaultPrepared_owner hn habs⟩

/-- Witness for C9: the etcd client secret created from an empty store
carries the owner reference to the cluster resource. -/
theorem prepare_owner_and_immutable_witness :
    AsOwner vrC ∈ ((etcdSecretsOf vrC 0).1).ownerRefs :=
  ((prepare_owner_and_immutable vrC [] (etcdPreparedStore vrC [] 0) 0 4).1
    (prepareEtcd_eq_absent 0 rfl)).2 (EtcdClientTLSSecretName vrC.name) _
    (etcdPrepared_get_client rfl) rfl

/-- C1 (amended): no CA secret is persisted; instead each prepare
invocation that passes its existence check generates one fresh CA and
embeds it in every secret that invocation creates, so all bundles of
the etcd group share one CA and both bundles of the vault group share
one CA; an invocation whose sentinel secret already exists generates
nothing and returns the store unchanged. -/
theorem ca_per_invocation (vr : VaultService) (s : Store) (g : Nat) :
    (s.get? (EtcdClientTLSSecretName vr.name) = none →
     s.get? (EtcdServerTLSSecretName vr.name) = none →
     s.get? (EtcdPeerTLSSecretName vr.name) = none →
      ∃ seC seS seP,
        prepareEtcdTLSSecrets vr s g = .ok (etcdPreparedStore vr s g, g + 4) ∧
        (etcdPreparedStore vr s g).get? (EtcdClientTLSSecretName vr.name) = some seC ∧
        (etcdPreparedStore vr s g).get? (EtcdServerTLSSecretName vr.name) = some seS ∧
        (etcdPreparedStore vr s g).get? (EtcdPeerTLSSecretName vr.name) = some seP ∧
        lookupData seC.data "etcd-client-ca.crt"
          = some (EncodeCertificatePEM (newCACert g).2.1) ∧
        lookupData seS.data "server-ca.crt"
          = some (EncodeCertificatePEM (newCACert g).2.1) ∧
        lookupData seP.data "peer-ca.crt"
          = some (EncodeCertificatePEM (newCACert g).2.1)) ∧
    (vr.tls = none →
     s.get? (DefaultVaultServerTLSSecretName vr.name) = none →
     s.get? (DefaultVaultClientTLSSecretName vr.name) = none →
      ∃ seV seK,
        prepareDefaultVaultTLSSecrets vr s g
          = .ok (vaultPreparedStore vr s g, g + 2) ∧
        (vaultPreparedStore vr s g).get? (DefaultVaultServerTLSSecretName vr.name)
          = some seV ∧
        (vaultPreparedStore vr s g).get? (DefaultVaultClientTLSSecretName vr.name)
          = some seK ∧
        lookupData seV.data "server-ca.crt"
          = some (EncodeCertificatePEM (newCACert g).2.1) ∧
        lookupData seK.data CATLSCertName
          = some (EncodeCertificatePEM (newCACert g).2.1)) ∧
    (∀ x, s.get? (EtcdClientTLSSecretName vr.name) = some x →
      prepareEtcdTLSSecrets vr s g = .ok (s, g)) := by
  refine ⟨?_, ?_, ?_⟩
  · intro h1 h2 h3
    exact ⟨(etcdSecretsOf vr g).1, (etcdSecretsOf vr g).2.1, (etcdSecretsOf vr g).2.2,
      prepareEtcd_eq_absent g h1, etcdPrepared_get_client h1,
      etcdPrepared_get_server h2, etcdPrepared_get_peer h3,
      etcdSecrets_ca_client vr g, etcdSecrets_ca_server vr g,
      etcdSecrets_ca_peer vr g⟩
  · intro htls h1 h2
    exact ⟨(vaultSecretsOf vr g).1, (vaultSecretsOf vr g).2,
      prepareVault_eq_none g htls, vaultPrepared_get_server h1,
      vaultPrepared_get_client h2, vaultSecrets_ca_server vr g,
      vaultSecrets_ca_client vr g⟩
  · intro x hx
    exact prepareEtcd_eq_present g hx

/-- Witness for C1 (amended) at a concrete cluster and empty store. -/
theorem ca_per_invocation_witness :
    ∃ seC seS seP,
      prepareEtcdTLSSecrets vrC [] 0 = .ok (etcdPreparedStore vrC [] 0, 0 + 4) ∧
      (etcdPreparedStore vrC [] 0).get? (EtcdClientTLSSecretName vrC.name) = some seC ∧
      (etcdPreparedStore vrC [] 0).get? (EtcdServerTLSSecretName vrC.name) = some seS ∧
      (etcdPreparedStore vrC [] 0).get? (EtcdPeerTLSSecretName vrC.name) = some seP ∧
      lookupData seC.data "etcd-client-ca.crt"
        = some (EncodeCertificatePEM (newCACert 0).2.1) ∧
      lookupData seS.data "server-ca.crt"
        = some (EncodeCertificatePEM (newCACert 0).2.1) ∧
      lookupData seP.data "peer-ca.crt"
        = some (EncodeCertificatePEM (newCACert 0).2.1) :=
  (ca_per_invocation vrC [] 0).1 rfl rfl rfl

/-- Counterexample for C1 as stated: running the vault prepare and the
etcd prepare for the same cluster from an empty store yields a vault
server leaf certificate and an etcd client leaf certificate signed by
different CAs — there is no single per-cluster CA. -/
theorem ca_per_invocation_counterexample :
    ∃ s1 s2 seV seE cV cE,
      prepareDefaultVaultTLSSecrets vrC [] 0 = .ok (s1, 2) ∧
      prepareEtcdTLSSecrets vrC s1 2 = .ok (s2, 6) ∧
      s2.get? (DefaultVaultServerTLSSecretName vrC.name) = some seV ∧
      s2.get? (EtcdClientTLSSecretName vrC.name) = some seE ∧
      lookupData seV.data ServerTLSCertName = some (EncodeCertificatePEM cV) ∧
      lookupData seE.data "etcd-client.crt" = some (EncodeCertificatePEM cE) ∧
      cV.issuerPub ≠ cE.issuerPub ∧
      lookupData seV.data "server-ca.crt" ≠ lookupData seE.data "etcd-client-ca.crt" := by
  refine ⟨_, _, _, _, _, _, rfl, rfl, rfl, rfl, rfl, rfl, ?_, ?_⟩ <;> decide

theorem get?_filter_self (s : Store) (n : String) :
    Store.get? (s.filter (fun p => p.1 != n)) n = none := by
  induction s with
  | nil => rfl
  | cons kv rest ih =>
    obtain ⟨k, v⟩ := kv
    by_cases h : k = n
    · simp [List.filter_cons, h, ih]
    · simp [List.filter_cons, h, Store.get?, ih]

theorem get?_filter_none {s : Store} {m : String} (q : String × Secret → Bool)
    (h : s.get? m = none) : Store.get? (s.filter q) m = none := by
  induction s with
  | nil => rfl
  | cons kv rest ih =>
    obtain ⟨k, v⟩ := kv
    by_cases hk : k = m
    · rw [Store.get?, if_pos hk] at h
      exact absurd h (by simp)
    · rw [Store.get?, if_neg hk] at h
      cases hq : q (k, v) <;> simp [List.filter_cons, hq, Store.get?, hk, ih h]

theorem deleteTolerant_ok (s : Store) {fail : String → Option String}
    {n : String} (hf : fail n = none) :
    ∃ s', deleteTolerant fail s n = .ok s' ∧ s'.get? n = none ∧
      ∀ m, s.get? m = none → s'.get? m = none := by
  unfold deleteTolerant Store.delete
  rw [hf]
  cases hs : s.get? n with
  | some x =>
    exact ⟨_, rfl, get?_filter_self s n, fun m hm => get?_filter_none _ hm⟩
  | none => exact ⟨s, rfl, hs, fun m hm => hm⟩

theorem deleteTolerant_error (s : Store) {fail : String → Option String}
    {n : String} {m : String} (hf : fail n = some m) :
    deleteTolerant fail s n
      = .error ("delete secret (" ++ n ++ ") failed: " ++ m) := by
  unfold deleteTolerant Store.delete
  rw [hf]
  rfl

/-- C5: the cleanup operations delete every bundle secret of their
group and tolerate already-absent secrets — when no infrastructure
failure is injected they succeed on any store and leave all the
group's secret names absent — while any other deletion error is
returned wrapped with the failing secret's name. -/
theorem cleanup_deletes_and_tolerates (fail : String → Option String)
    (vr : VaultService) (s : Store) :
    ((fail (EtcdClientTLSSecretName vr.name) = none ∧
      fail (EtcdServerTLSSecretName vr.name) = none ∧
      fail (EtcdPeerTLSSecretName vr.name) = none) →
      ∃ s', cleanupEtcdTLSSecrets fail vr s = .ok s' ∧
        s'.get? (EtcdClientTLSSecretName vr.name) = none ∧
        s'.get? (EtcdServerTLSSecretName vr.name) = none ∧
        s'.get? (EtcdPeerTLSSecretName vr.name) = none) ∧
    ((fail (DefaultVaultServerTLSSecretName vr.name) = none ∧
      fail (DefaultVaultClientTLSSecretName vr.name) = none) →
      ∃ s', cleanupDefaultVaultTLSSecrets fail vr s = .ok s' ∧
        s'.get? (DefaultVaultServerTLSSecretName vr.name) = none ∧
        s'.get? (DefaultVaultClientTLSSecretName vr.name) = none) ∧
    (∀ m, fail (EtcdClientTLSSecretName vr.name) = some m →
      cleanupEtcdTLSSecrets fail vr s = .error ("cleanup TLS secrets failed: "
        ++ ("delete secret (" ++ EtcdClientTLSSecretName vr.name ++ ") failed: " ++ m))) ∧
    (∀ m, fail (EtcdClientTLSSecretName vr.name) = none →
      fail (EtcdServerTLSSecretName vr.name) = some m →
      cleanupEtcdTLSSecrets fail vr s = .error ("cleanup TLS secrets failed: "
        ++ ("delete secret (" ++ EtcdServerTLSSecretName vr.name ++ ") failed: " ++ m))) ∧
    (∀ m, fail (EtcdClientTLSSecretName vr.name) = none →
      fail (EtcdServerTLSSecretName vr.name) = none →
      fail (EtcdPeerTLSSecretName vr.name) = some m →
      cleanupEtcdTLSSecrets fail vr s = .error ("cleanup TLS secrets failed: "
        ++ ("delete secret (" ++ EtcdPeerTLSSecretName vr.name ++ ") failed: " ++ m))) ∧
    (∀ m, fail (DefaultVaultServerTLSSecretName vr.name) = some m →
      cleanupDefaultVaultTLSSecrets fail vr s = .error ("cleanup vault TLS secrets failed: "
        ++ ("delete secret (" ++ DefaultVaultServerTLSSecretName vr.name ++ ") failed: " ++ m))) ∧
    (∀ m, fail (DefaultVaultServerTLSSecretName vr.name) = none →
      fail (DefaultVaultClientTLSSecretName vr.name) = some m →
      cleanupDefaultVaultTLSSecrets fail vr s
        = .error ("cleanup vault TLS secrets failed: "
          ++ ("delete secret (" ++ DefaultVaultClientTLSSecretName vr.name ++ ") failed: " ++ m))) := by
  refine ⟨?_, ?_, ?_, ?_, ?_, ?_, ?_⟩
  · rintro ⟨h1, h2, h3⟩
    obtain ⟨s1, e1, a1, p1⟩ := deleteTolerant_ok s h1
    obtain ⟨s2, e2, a2, p2⟩ := deleteTolerant_ok s1 h2
    obtain ⟨s3, e3, a3, p3⟩ := deleteTolerant_ok s2 h3
    unfold cleanupEtcdTLSSecrets
    rw [e1]
    dsimp only
    rw [e2]
    dsimp only
    rw [e3]
    exact ⟨s3, rfl, p3 _ (p2 _ a1), p3 _ a2, a3⟩
  · rintro ⟨h1, h2⟩
    obtain ⟨s1, e1, a1, p1⟩ := deleteTolerant_ok s h1
    obtain ⟨s2, e2, a2, p2⟩ := deleteTolerant_ok s1 h2
    unfold cleanupDefaultVaultTLSSecrets
    rw [e1]
    dsimp only
    rw [e2]
    exact ⟨s2, rfl, p2 _ a1, a2⟩
  · intro m hm
    unfold cleanupEtcdTLSSecrets
    rw [deleteTolerant_error s hm]
  · intro m h1 hm
    obtain ⟨s1, e1, a1, p1⟩ := deleteTolerant_ok s h1
    unfold cleanupEtcdTLSSecrets
    rw [e1]
    dsimp only
    rw [deleteTolerant_error s1 hm]
  · intro m h1 h2 hm
    obtain ⟨s1, e1, a1, p1⟩ := deleteTolerant_ok s h1
    obtain ⟨s2, e2, a2, p2⟩ := deleteTolerant_ok s1 h2
    unfold cleanupEtcdTLSSecrets
    rw [e1]
    dsimp only
    rw [e2]
    dsimp only
    rw [deleteTolerant_error s2 hm]
  · intro m hm
    unfold cleanupDefaultVaultTLSSecrets
    rw [deleteTolerant_error s hm]
  · intro m h1 hm
    obtain ⟨s1, e1, a1, p1⟩ := deleteTolerant_ok s h1
    unfold cleanupDefaultVaultTLSSecrets
    rw [e1]
    dsimp only
    rw [deleteTolerant_error s1 hm]

/-- Witness for C5: with no injected failures, cleaning up a store
that already contains none of the secrets succeeds. -/
theorem cleanup_deletes_and_tolerates_witness :
    ∃ s', cleanupEtcdTLSSecrets (fun _ => none) vrC [] = .ok s' ∧
      s'.get? (EtcdClientTLSSecretName vrC.name) = none ∧
      s'.get? (EtcdServerTLSSecretName vrC.name) = none ∧
      s'.get? (EtcdPeerTLSSecretName vrC.name) = none :=
  (cleanup_deletes_and_tolerates (fun _ => none) vrC []).1 ⟨rfl, rfl, rfl⟩

theorem upInv_preserved {d : String} {N : Nat} {st st' : UpState}
    (hN : 2 ≤ N) (hinv : UpInv N st) (hstep : UpStep d st st') :
    UpInv N st' := by
  obtain ⟨hlen, n0, hn0mem, hn0⟩ := hinv
  cases hstep with
  | tearDown i hif him hver hall =>
    rw [hif] at hlen
    simp only [if_neg Bool.false_ne_true] at hlen
    constructor
    · simp [List.length_erase_of_mem him, hlen]
    · have hlen2 : (st.members.erase i).length = N - 1 := by
        rw [List.length_erase_of_mem him, hlen]
      have hne : st.members.erase i ≠ [] := by
        intro hnil
        rw [hnil] at hlen2
        simp at hlen2
        omega
      obtain ⟨m, hm⟩ := List.exists_mem_of_ne_nil _ hne
      exact ⟨m, hm, hall m (List.mem_of_mem_erase hm)⟩
  | reappear j hif =>
    rw [hif] at hlen
    simp only [if_pos rfl] at hlen
    constructor
    · simp [hlen]
      omega
    · exact ⟨n0, List.mem_append_left _ hn0mem, hn0⟩
  | unsealNode pre post n hmem hsealed =>
    constructor
    · rw [hmem] at hlen
      simpa using hlen
    · exact ⟨{ n with sealedB := false }, by simp, rfl⟩

theorem upInv_reach {d : String} {N : Nat} {st0 st : UpState}
    (hN : 2 ≤ N) (h0 : UpInv N st0) (h : UpReach d st0 st) : UpInv N st := by
  induction h with
  | refl => exact h0
  | tail hsteps hstep ih => exact upInv_preserved hN ih hstep

/-- C3: during a rolling upgrade toward version `d` on a cluster of
`N ≥ 2` nodes, in every reachable state at least one member is
observed unsealed (the sealed set never equals the member set), at
most one replaced node is missing at any time and every single pass
tears down at most one node, and a `Complete` state has full
membership with every member — in particular the active and standby
nodes — reporting version `d`. -/
theorem upgrade_safety (d : String) (N : Nat) (st0 st : UpState)
    (hN : 2 ≤ N) (hinit : UpInit N st0) (hreach : UpReach d st0 st) :
    (∃ n ∈ st.members, n.sealedB = false) ∧
    N - st.members.length ≤ 1 ∧
    (∀ st', UpStep d st st' →
      st.members.length - st'.members.length ≤ 1) ∧
    (UpComplete d st →
      st.members.length = N ∧ ∀ n ∈ st.members, n.ver = d) := by
  obtain ⟨hif0, hlen0, hex0⟩ := hinit
  have h0 : UpInv N st0 := by
    refine ⟨?_, hex0⟩
    rw [hif0]
    simpa using hlen0
  obtain ⟨hlen, hex⟩ := upInv_reach hN h0 hreach
  refine ⟨hex, ?_, ?_, ?_⟩
  · cases hif : st.inFlight <;> rw [hif] at hlen <;> simp at hlen <;> omega
  · intro st' hstep
    cases hstep with
    | tearDown i hif him hver hall =>
      simp [List.length_erase_of_mem him]
      omega
    | reappear j hif => simp
    | unsealNode pre post n hmem hsealed => simp [hmem]
  · intro hc
    obtain ⟨hif, hver⟩ := hc
    rw [hif] at hlen
    simp only [if_neg Bool.false_ne_true] at hlen
    exact ⟨hlen, hver⟩

/-- Witness for C3 at a concrete two-node cluster at the start of an
upgrade. -/
theorem upgrade_safety_witness :
    ∃ n ∈ (UpState.mk [⟨0, "0.9.1-0", false⟩, ⟨1, "0.9.1-0", false⟩] false).members,
      n.sealedB = false :=
  (upgrade_safety "0.9.1-1" 2
    ⟨[⟨0, "0.9.1-0", false⟩, ⟨1, "0.9.1-0", false⟩], false⟩
    ⟨[⟨0, "0.9.1-0", false⟩, ⟨1, "0.9.1-0", false⟩], false⟩
    (by decide)
    ⟨rfl, rfl, ⟨0, "0.9.1-0", false⟩, List.mem_cons_self _ _, rfl⟩
    Relation.ReflTransGen.refl).1

end VaultOperator
